import Mathlib

/-!
Shallow embedding of the dual-leg options execution engine of the
`algtrading` repository (files `mani.py` and `trading_strategy.py`),
together with proofs about the embedded operations.

Prices are modelled as exact rationals; Python's `round` builtin
(round-half-to-even) is modelled by `pyRound`; machine floats do not
enter any of the claims at a rounding boundary.
-/

namespace AlgTrading

/-- Python's builtin `round` on a rational number: round to the nearest
integer, ties going to the even integer (banker's rounding). -/
def pyRound (q : ℚ) : ℤ :=
  if q - ⌊q⌋ < 1/2 then ⌊q⌋
  else if 1/2 < q - ⌊q⌋ then ⌊q⌋ + 1
  else if ⌊q⌋ % 2 = 0 then ⌊q⌋ else ⌊q⌋ + 1

/-- Tick rounding `AlgoKM.round_to_tick_size`:
`round(price / tick_size) * tick_size`. -/
def round_to_tick_size (price : ℚ) (tick : ℚ) : ℚ :=
  (pyRound (price / tick) : ℚ) * tick

/-- The three prices of one bracket (GTT) order. -/
structure BracketPrices where
  buy : ℚ
  stopLoss : ℚ
  target : ℚ
  deriving Repr, DecidableEq

/-- Price derivation of `AlgoKM.buyStock` (mani.py lines 103-122):
the 1.5 percent markup on the base price happens only inside the
`if self.tick_size:` guard, the stop-loss uses -1.25 percent of the
(possibly rounded) buy price, and the target uses a hard-coded
+3 percent of the buy price; each derived price is tick-rounded
(tick 0.05) exactly when `tick_size` is enabled. -/
def buyStockPrices (tick_size : Bool) (buy_price0 : ℚ) : BracketPrices :=
  let buy_price : ℚ :=
    if tick_size then round_to_tick_size (buy_price0 + (buy_price0 * (1.5 : ℚ)) / 100) (0.05 : ℚ)
    else buy_price0
  let stop_loss_value0 : ℚ := buy_price + (buy_price * (-(1.25 : ℚ))) / 100
  let stop_loss_value : ℚ :=
    if tick_size then round_to_tick_size stop_loss_value0 (0.05 : ℚ) else stop_loss_value0
  let target_value0 : ℚ := buy_price + (buy_price * 3) / 100
  let target_value : ℚ :=
    if tick_size then round_to_tick_size target_value0 (0.05 : ℚ) else target_value0
  ⟨buy_price, stop_loss_value, target_value⟩

/-- Fold step of the breakout-high tracker, `AlgoKM.highMarketValue`
(mani.py lines 191-197). -/
def highMarketValue (current high : ℚ) : ℚ :=
  if current = 0 then high
  else if current < high then high
  else current

/-- The high-tracking fold over a sequence of candidate prices. -/
def foldHigh (init : ℚ) (xs : List ℚ) : ℚ :=
  xs.foldl highMarketValue init

/-- The trace of running states of the high-tracking fold (the value of
the tracked high after each candidate), starting from `init`. -/
def foldHighTrace (init : ℚ) (xs : List ℚ) : List ℚ :=
  xs.scanl highMarketValue init

/-- Maximum of the positive candidates of a list (0 when there are none). -/
def maxPositive (xs : List ℚ) : ℚ :=
  (xs.filter (fun x => 0 < x)).foldl max 0

/-- Strike selection of `AlgoKM.get_option_contracts` (mani.py line 475):
`round(sensex_price / 100) * 100`. -/
def roundedStrike (sensex_price : ℚ) : ℤ :=
  pyRound (sensex_price / 100) * 100

/-! ### The conditional-order event state machine
(`TradingStrategy.process_portfolio_update`, trading_strategy.py 262-423) -/

/-- The `strategy` field of one GTT rule. -/
inductive RuleKind where
  | ENTRY
  | STOPLOSS
  | TARGET
  deriving Repr, DecidableEq

/-- The `status` field of one GTT rule. -/
inductive RuleStatus where
  | PENDING
  | ACTIVE
  | TRIGGERED
  | FAILED
  | CANCELLED
  | COMPLETED
  deriving Repr, DecidableEq

/-- One entry of the `rules` array of a GTT portfolio event. -/
structure GttRule where
  strategy : RuleKind
  status : RuleStatus
  deriving Repr, DecidableEq

/-- The index-selection loop of `process_portfolio_update` (lines 292-298):
each rule kind keeps the index of the last rule of that kind, every
index defaulting to 0 when no rule of the kind occurs. -/
def ruleIdx (k : RuleKind) (rules : List GttRule) : Nat :=
  rules.enum.foldl (fun acc p => if p.2.strategy = k then p.1 else acc) 0

/-- A default rule, standing for the value Python would read out of an
arbitrary first list element; never used at a valid index. -/
def dfltRule : GttRule := ⟨RuleKind.ENTRY, RuleStatus.PENDING⟩

/-- The rule chosen for kind `k`: `rules[<k>_index]`. -/
def chosenRule (k : RuleKind) (rules : List GttRule) : GttRule :=
  rules.getD (ruleIdx k rules) dfltRule

/-- The transition classification of one conditional-order event. -/
inductive Transition where
  | EntryFailed
  | StoplossPath
  | TargetPath
  | NoOp
  deriving Repr, DecidableEq

/-- Classification of the rule snapshots of a GTT event, mirroring the
`if`/`elif` chain of lines 307, 339 and 385.  An empty rule list makes
`rules[...]` raise an `IndexError`, which the surrounding handler catches
and logs (`none`). -/
def classify (rules : List GttRule) : Option Transition :=
  match rules with
  | [] => none
  | _ :: _ =>
    let entry_rule := chosenRule RuleKind.ENTRY rules
    let stoploss_rule := chosenRule RuleKind.STOPLOSS rules
    let target_rule := chosenRule RuleKind.TARGET rules
    some (
      if entry_rule.strategy = RuleKind.ENTRY ∧ entry_rule.status = RuleStatus.FAILED then
        Transition.EntryFailed
      else if stoploss_rule.status ∈
            [RuleStatus.ACTIVE, RuleStatus.TRIGGERED, RuleStatus.CANCELLED, RuleStatus.COMPLETED]
          ∧ target_rule.status = RuleStatus.CANCELLED then
        Transition.StoplossPath
      else if target_rule.strategy = RuleKind.TARGET ∧ target_rule.status ∈
            [RuleStatus.ACTIVE, RuleStatus.TRIGGERED, RuleStatus.COMPLETED] then
        Transition.TargetPath
      else
        Transition.NoOp)

/-- The two option legs. -/
inductive Leg where
  | CE
  | PE
  deriving Repr, DecidableEq

/-- What a `*_gtt_order_id` attribute can hold at runtime: Python `None`,
a broker-assigned id string (modelled as a natural number), or — after the
stop-loss-path re-entry, which stores the un-extracted API response — the
raw response object (carrying its `data.gtt_order_ids` list). -/
inductive StoredId where
  | noneId
  | realId (n : Nat)
  | rawResponse (ids : List Nat)
  deriving Repr, DecidableEq

/-- The dispatcher test `self.xx_gtt_order_id and gtt_order_id == self.xx_gtt_order_id`:
a falsy (`None`) stored id never matches, and the event's id string only
equals a stored id string, never a raw response object. -/
def idMatches (stored : StoredId) (gttId : Nat) : Bool :=
  match stored with
  | StoredId.realId n => n = gttId
  | _ => false

/-- The `update_type` discriminator of a portfolio event. -/
inductive UpdateKind where
  | gttOrder
  | order
  | position
  | holding
  deriving Repr, DecidableEq

/-- One portfolio event as consumed by `process_portfolio_update`. -/
structure PortfolioEvent where
  kind : UpdateKind
  gttId : Nat
  rules : List GttRule
  deriving Repr, DecidableEq

/-- Coordinator state: the mutable attributes of `TradingStrategy`
touched by `process_portfolio_update`. -/
structure StratState where
  ceId : StoredId
  peId : StoredId
  ceStopCount : Nat
  peStopCount : Nat
  reentryPlaced : Bool
  ceReentryPlaced : Bool
  peReentryPlaced : Bool
  ceHighPrice : ℚ
  peHighPrice : ℚ
  deriving Repr, DecidableEq

/-- The stored id of a leg. -/
def StratState.legId (st : StratState) : Leg → StoredId
  | Leg.CE => st.ceId
  | Leg.PE => st.peId

/-- The tracked high price of a leg. -/
def StratState.legHigh (st : StratState) : Leg → ℚ
  | Leg.CE => st.ceHighPrice
  | Leg.PE => st.peHighPrice

/-- The stop-loss hit count of a leg. -/
def StratState.legStopCount (st : StratState) : Leg → Nat
  | Leg.CE => st.ceStopCount
  | Leg.PE => st.peStopCount

/-- The sibling of a leg. -/
def Leg.sibling : Leg → Leg
  | Leg.CE => Leg.PE
  | Leg.PE => Leg.CE

/-- Externally visible actions of one event-handling step. -/
inductive Effect where
  | resubmit (l : Leg) (basePrice : ℚ)
  | resubmitFailed (l : Leg)
  | cancelOrder (target : StoredId)
  | manualCancel (l : Leg)
  | terminateSuccess
  | errorLogged
  deriving Repr, DecidableEq

/-- The broker's answer to a `buyStock` call in this step: `none` when the
placement raised `ApiException` (in which case `buyStock` returns Python
`None`), otherwise the `data.gtt_order_ids` list of the response. -/
structure StepInput where
  event : PortfolioEvent
  buyResp : Option (List Nat)
  cancelOk : Bool
  cancelRetryOk : Bool
  deriving Repr, DecidableEq

/-- Write a stored id into a leg's `*_gtt_order_id` attribute. -/
def setLegId (st : StratState) (l : Leg) (v : StoredId) : StratState :=
  match l with
  | Leg.CE => { st with ceId := v }
  | Leg.PE => { st with peId := v }

/-- The re-entry resubmission of the ENTRY-FAILED branch (lines 312-336):
`buyStock(...).data.gtt_order_ids[0]` — the id is extracted from the
response; an exception anywhere in that expression (a `None` response, or
an empty id list) skips both the assignment and `reentry_placed = True`. -/
def resubmitExtract (st : StratState) (l : Leg) (resp : Option (List Nat)) :
    StratState × List Effect :=
  match resp with
  | some (i :: _) =>
      (setLegId { st with reentryPlaced := true } l (StoredId.realId i),
       [Effect.resubmit l (st.legHigh l)])
  | some [] => (st, [Effect.resubmit l (st.legHigh l), Effect.errorLogged])
  | none => (st, [Effect.resubmitFailed l, Effect.errorLogged])

/-- Mark the shared and the per-leg re-entry flags (`reentry_placed`,
`xx_reentry_placed`). -/
def markReentry (st : StratState) (l : Leg) : StratState :=
  match l with
  | Leg.CE => { st with reentryPlaced := true, ceReentryPlaced := true }
  | Leg.PE => { st with reentryPlaced := true, peReentryPlaced := true }

/-- The re-entry resubmission of the stop-loss branch (lines 348-382):
the raw `buyStock(...)` return value is assigned to the leg's
`*_gtt_order_id` without extracting the broker id, and the assignment
never raises, so the re-entry flags are set even when the placement
failed and `buyStock` returned `None`. -/
def resubmitRaw (st : StratState) (l : Leg) (resp : Option (List Nat)) :
    StratState × List Effect :=
  match resp with
  | some ids =>
      (markReentry (setLegId st l (StoredId.rawResponse ids)) l,
       [Effect.resubmit l (st.legHigh l)])
  | none =>
      (markReentry (setLegId st l StoredId.noneId) l,
       [Effect.resubmitFailed l])

/-- The ENTRY-FAILED branch body (lines 307-336). -/
def handleEntryFailed (st : StratState) (isCe isPe : Bool) (resp : Option (List Nat)) :
    StratState × List Effect :=
  if isCe && !st.reentryPlaced then resubmitExtract st Leg.CE resp
  else if isPe && !st.reentryPlaced then resubmitExtract st Leg.PE resp
  else (st, [])

/-- Increment a leg's stop-loss hit count (`self.xx_stoploss_hit_count += 1`). -/
def bumpStopCount (st : StratState) : Leg → StratState
  | Leg.CE => { st with ceStopCount := st.ceStopCount + 1 }
  | Leg.PE => { st with peStopCount := st.peStopCount + 1 }

/-- The stop-loss branch body for one leg (lines 341-382): increment the
leg's hit count, terminate (cancelling the sibling's stored order id)
when the counts now sum to exactly 2, otherwise resubmit if the shared
re-entry flag is still clear. -/
def handleStoplossLeg (st : StratState) (l : Leg) (resp : Option (List Nat)) :
    StratState × List Effect :=
  let st1 := bumpStopCount st l
  if st1.ceStopCount + st1.peStopCount = 2 then
    (st1, [Effect.cancelOrder (st1.legId l.sibling), Effect.terminateSuccess])
  else if !st1.reentryPlaced then resubmitRaw st1 l resp
  else (st1, [])

/-- The stop-loss branch (CE checked first, as in the source). -/
def handleStoploss (st : StratState) (isCe isPe : Bool) (resp : Option (List Nat)) :
    StratState × List Effect :=
  if isCe then handleStoplossLeg st Leg.CE resp
  else if isPe then handleStoplossLeg st Leg.PE resp
  else (st, [])

/-- The target branch body for one leg (lines 385-423): set the shared
re-entry flag, null the winning leg's order id, cancel the sibling's
stored order id, retry once on a failure response, and surface a manual
cancellation request if the retry fails too. -/
def handleTargetLeg (st : StratState) (l : Leg) (cancelOk cancelRetryOk : Bool) :
    StratState × List Effect :=
  let st1 := setLegId { st with reentryPlaced := true } l StoredId.noneId
  let sib := st.legId l.sibling
  if cancelOk then (st1, [Effect.cancelOrder sib])
  else if cancelRetryOk then (st1, [Effect.cancelOrder sib, Effect.cancelOrder sib])
  else (st1, [Effect.cancelOrder sib, Effect.cancelOrder sib, Effect.manualCancel l.sibling])

/-- The target branch (CE checked first, as in the source). -/
def handleTarget (st : StratState) (isCe isPe : Bool) (cancelOk cancelRetryOk : Bool) :
    StratState × List Effect :=
  if isCe then handleTargetLeg st Leg.CE cancelOk cancelRetryOk
  else if isPe then handleTargetLeg st Leg.PE cancelOk cancelRetryOk
  else (st, [])

/-- One run of `process_portfolio_update` on a single event: non-GTT
events and events matching neither stored leg id are ignored; otherwise
the event is classified and the matching branch is executed. -/
def processUpdate (st : StratState) (inp : StepInput) : StratState × List Effect :=
  let ev := inp.event
  if ev.kind ≠ UpdateKind.gttOrder then (st, [])
  else
    let isCe := idMatches st.ceId ev.gttId
    let isPe := idMatches st.peId ev.gttId
    if !(isCe || isPe) then (st, [])
    else
      match classify ev.rules with
      | none => (st, [Effect.errorLogged])
      | some Transition.EntryFailed => handleEntryFailed st isCe isPe inp.buyResp
      | some Transition.StoplossPath => handleStoploss st isCe isPe inp.buyResp
      | some Transition.TargetPath => handleTarget st isCe isPe inp.cancelOk inp.cancelRetryOk
      | some Transition.NoOp => (st, [])

/-- Process a whole sequence of events one at a time (the monitor loop
pops queue items and hands each to `process_portfolio_update`),
accumulating effects. -/
def processRun (st : StratState) : List StepInput → StratState × List Effect
  | [] => (st, [])
  | inp :: rest =>
      let r := processUpdate st inp
      let r2 := processRun r.1 rest
      (r2.1, r.2 ++ r2.2)

/-- Number of actual (broker-accepted) resubmissions among the effects. -/
def countResubmits (effs : List Effect) : Nat :=
  (effs.filter (fun e => match e with | Effect.resubmit _ _ => true | _ => false)).length

/-- The re-entry budget of the spec's `RunPolicyState`, read off the
shared `reentry_placed` flag. -/
def reentryBudget (st : StratState) : ℤ :=
  1 - (if st.reentryPlaced then 1 else 0)

/-- A well-formed broker answer to a GTT placement: either the call
failed (`none`), or the successful response carries at least one
broker-assigned order id. -/
def respWellFormed : Option (List Nat) → Prop
  | none => True
  | some ids => ids ≠ []

/-! ### Wall-clock times (`datetime.time` values compared lexicographically) -/

/-- A Python `datetime.time` value. -/
structure PyTime where
  hour : Nat
  minute : Nat
  second : Nat
  micro : Nat
  deriving Repr, DecidableEq

/-- Python's `<` on `datetime.time`: lexicographic on
(hour, minute, second, microsecond). -/
def PyTime.ltB (a b : PyTime) : Bool :=
  a.hour < b.hour
  || (a.hour = b.hour && (a.minute < b.minute
      || (a.minute = b.minute && (a.second < b.second
          || (a.second = b.second && a.micro < b.micro)))))

/-- Python's `<=` on `datetime.time`. -/
def PyTime.leB (a b : PyTime) : Bool :=
  a == b || PyTime.ltB a b

/-! ### Historical price capture at the at-the-money instant
(`AlgoKM.price_at_917`, mani.py 615-622, and the `now > at_the_money_time`
branch of `TradingStrategy.capture_sensex_price_at_917`,
trading_strategy.py 484-496) -/

/-- One 1-minute historical candle: `candle[0]` is the bar-open
timestamp, `candle[1]` the open price, `candle[2]` the high. -/
structure Candle where
  time : PyTime
  openPrice : ℚ
  highPrice : ℚ
  deriving Repr, DecidableEq

/-- Model of `AlgoKM.price_at_917` over an already-fetched candle list: the open
price (`candle[1]`) of the first candle whose timestamp's time-of-day
equals the target instant, `none` (Python `None`) when no bar matches. -/
def price_at_917 (t : PyTime) (candles : List Candle) : Option ℚ :=
  match candles.find? (fun c => c.time == t) with
  | some c => some c.openPrice
  | none => none

/-- Python truthiness of the looked-up price (`if not sensex_price:`):
`None` and `0` are falsy. -/
def priceTruthy : Option ℚ → Bool
  | none => false
  | some q => q ≠ 0

/-- Outcome of the historical capture path: either a price value or the
Python value `None` returned to the caller.  The code of this branch
contains no `raise`, so no error outcome exists. -/
inductive CaptureOutcome where
  | price (p : ℚ)
  | returnedNone
  deriving Repr, DecidableEq

/-- Read an `Option` result as the value returned by the Python function. -/
def toOutcome : Option ℚ → CaptureOutcome
  | some q => CaptureOutcome.price q
  | none => CaptureOutcome.returnedNone

/-- The `now > at_the_money_time` branch of
`capture_sensex_price_at_917`: look the instant up in the fetched bars;
when the result is falsy, sleep 30 seconds, fetch again and return the
second lookup's result unconditionally.  The returned triple is
(outcome, number of history lookups, seconds slept). -/
def captureAfterInstant (t : PyTime) (fetch1 fetch2 : List Candle) :
    CaptureOutcome × Nat × Nat :=
  let p1 := price_at_917 t fetch1
  if priceTruthy p1 then (toOutcome p1, 1, 0)
  else
    let p2 := price_at_917 t fetch2
    (toOutcome p2, 2, 30)

/-! ### The breakout tracker's effective-end cut-off
(`TradingStrategy.track_high_prices`, trading_strategy.py 612-627) -/

/-- The cut-off `time(start_time.hour, (start_time.minute + 1) % 60)`
against which the current time is compared at the top of every tracking
iteration: the minute wraps with no carry into the hour. -/
def trackCutoff (start : PyTime) : PyTime :=
  ⟨start.hour, (start.minute + 1) % 60, 0, 0⟩

/-- What the first iteration of the `track_high_prices` loop does
(entered with `already_tracked = False`). -/
structure TrackIterResult where
  replayed : Bool
  breaksLoop : Bool
  liveTracking : Bool
  deriving Repr, DecidableEq

/-- First iteration of the tracking loop: past the wrapped cut-off the
loop performs the one-shot historical replay (since nothing was tracked
yet) and breaks; otherwise it may run the in-window catch-up read, then
either breaks at the exit time or proceeds to the live tick receive. -/
def trackFirstIter (now start endT exitT : PyTime) : TrackIterResult :=
  if PyTime.ltB (trackCutoff start) now then ⟨true, true, false⟩
  else
    let catchUp := PyTime.leB start now && PyTime.leB now endT
    if PyTime.leB exitT now then ⟨catchUp, true, false⟩
    else ⟨catchUp, false, true⟩

/-- The bracket price formulas of the amended claim C6, stated in the
spec's multiplicative form: the 1.5 percent entry markup is applied (and
tick-rounded) only when tick rounding is enabled, the stop-loss is
-1.25 percent and the target a hard-coded +3 percent of the derived
buy price, each tick-rounded exactly when rounding is enabled. -/
def bracketPricesFormula (tickEnabled : Bool) (base : ℚ) : BracketPrices :=
  let rnd : ℚ → ℚ := fun p => if tickEnabled then round_to_tick_size p (0.05 : ℚ) else p
  let buy : ℚ := if tickEnabled then round_to_tick_size (base * (1 + 1.5 / 100)) (0.05 : ℚ) else base
  ⟨buy, rnd (buy * (1 - 1.25 / 100)), rnd (buy * (1 + 3 / 100))⟩

/-! ## Lemmas about Python rounding -/

lemma floor_frac_nonneg (q : ℚ) : (0 : ℚ) ≤ q - ⌊q⌋ := by
  have := Int.floor_le q
  linarith

lemma floor_frac_lt_one (q : ℚ) : q - ⌊q⌋ < 1 := by
  have := Int.lt_floor_add_one q
  linarith

/-- Rounding distance: `pyRound` lands within half a unit of its argument. -/
lemma pyRound_dist (q : ℚ) : |q - (pyRound q : ℚ)| ≤ 1/2 := by
  have h0 := floor_frac_nonneg q
  have h1 := floor_frac_lt_one q
  unfold pyRound
  split
  · next h => rw [abs_le]; constructor <;> linarith
  · split
    · next h h2 => rw [abs_le]; constructor <;> push_cast <;> linarith
    · next h h2 =>
        have heq : q - ⌊q⌋ = 1/2 := le_antisymm (not_lt.mp h2) (not_lt.mp h)
        split <;> (rw [abs_le]; constructor <;> push_cast <;> linarith)

/-- Nearest-integer property: no integer is strictly closer than `pyRound`. -/
lemma pyRound_nearest (q : ℚ) (m : ℤ) : |q - (pyRound q : ℚ)| ≤ |q - (m : ℚ)| := by
  by_cases hm : m = pyRound q
  · rw [hm]
  · have hne : pyRound q - m ≠ 0 := sub_ne_zero.mpr (Ne.symm hm)
    have h1 : (1 : ℤ) ≤ |pyRound q - m| := Int.one_le_abs hne
    have h1Q : (1 : ℚ) ≤ |(pyRound q : ℚ) - (m : ℚ)| := by
      have : ((|pyRound q - m| : ℤ) : ℚ) = |(pyRound q : ℚ) - (m : ℚ)| := by push_cast; ring_nf
      rw [← this]
      exact_mod_cast h1
    have htri : |(pyRound q : ℚ) - (m : ℚ)| ≤ |(pyRound q : ℚ) - q| + |q - (m : ℚ)| :=
      abs_sub_le _ q _
    have hd := pyRound_dist q
    have hd2 := pyRound_dist q
    rw [abs_sub_comm q ((pyRound q : ℚ))] at hd2
    linarith

lemma round_to_tick_congr {x y : ℚ} (t : ℚ) (h : x = y) :
    round_to_tick_size x t = round_to_tick_size y t := by rw [h]

/-! ## Claim C6 — bracket price derivation of `buyStock` -/

/-- Claim C6, counterexample: for base price 250 with tick rounding
enabled the code derives buy 253.75, stop-loss 250.60 and target 261.35
(the target markup is a hard-coded 3 percent), not the stop-loss 250.45
and target 260.10 asserted by the claim. -/
theorem C6_counterexample :
    buyStockPrices true 250 = ⟨(253.75 : ℚ), (250.60 : ℚ), (261.35 : ℚ)⟩
    ∧ (buyStockPrices true 250).stopLoss ≠ (250.45 : ℚ)
    ∧ (buyStockPrices true 250).target ≠ (260.10 : ℚ) := by
  have h : buyStockPrices true 250 = ⟨(253.75 : ℚ), (250.60 : ℚ), (261.35 : ℚ)⟩ := by
    norm_num [buyStockPrices, round_to_tick_size, pyRound]
  refine ⟨h, ?_, ?_⟩ <;> rw [h] <;> norm_num

/-- Claim C6, amended: with tick rounding enabled, buy price =
`round_tick(base × (1 + 1.5/100))`, then stop-loss =
`round_tick(buy × (1 − 1.25/100))` and target =
`round_tick(buy × (1 + 3/100))`, each of the three independently rounded
to the nearest 0.05 tick; with tick rounding disabled the buy markup is
skipped entirely (buy = base unchanged) and stop/target are the same
unrounded formulas over that base; for base 250 with tick enabled this
yields buy 253.75, stop-loss 250.60, target 261.35. -/
theorem C6_amended (t : Bool) (b : ℚ) :
    buyStockPrices t b = bracketPricesFormula t b
    ∧ buyStockPrices true 250 = ⟨(253.75 : ℚ), (250.60 : ℚ), (261.35 : ℚ)⟩ := by
  refine ⟨?_, by norm_num [buyStockPrices, round_to_tick_size, pyRound]⟩
  cases t
  · simp only [buyStockPrices, bracketPricesFormula, Bool.false_eq_true, if_false]
    congr 1 <;> ring
  · simp only [buyStockPrices, bracketPricesFormula, if_true]
    rw [show b + b * (1.5 : ℚ) / 100 = b * (1 + 1.5 / 100) from by ring]
    congr 1 <;> exact round_to_tick_congr (0.05 : ℚ) (by ring)

/-! ## Claim C7 — the breakout-high fold -/

lemma highMarketValue_eq_max {a x : ℚ} (_ha : 0 ≤ a) (hx : 0 ≤ x) :
    highMarketValue a x = max a x := by
  unfold highMarketValue
  split
  · next h => rw [h, max_eq_right hx]
  · split
    · next h hlt => rw [max_eq_right (le_of_lt hlt)]
    · next h hlt => rw [max_eq_left (not_lt.mp hlt)]

lemma foldl_highMarketValue_eq_foldl_max :
    ∀ (xs : List ℚ) (a : ℚ), 0 ≤ a → (∀ x ∈ xs, 0 ≤ x) →
      xs.foldl highMarketValue a = xs.foldl max a := by
  intro xs
  induction xs with
  | nil => intro a _ _; rfl
  | cons x xs ih =>
      intro a ha h
      have hx : (0 : ℚ) ≤ x := h x (List.mem_cons_self x xs)
      have hrest : ∀ y ∈ xs, (0 : ℚ) ≤ y := fun y hy => h y (List.mem_cons_of_mem x hy)
      simp only [List.foldl_cons]
      rw [highMarketValue_eq_max ha hx]
      exact ih (max a x) (le_trans ha (le_max_left a x)) hrest

lemma foldl_max_filter_pos :
    ∀ (xs : List ℚ) (a : ℚ), 0 ≤ a → (∀ x ∈ xs, 0 ≤ x) →
      xs.foldl max a = (xs.filter (fun x => 0 < x)).foldl max a := by
  intro xs
  induction xs with
  | nil => intro a _ _; rfl
  | cons x xs ih =>
      intro a ha h
      have hx : (0 : ℚ) ≤ x := h x (List.mem_cons_self x xs)
      have hrest : ∀ y ∈ xs, (0 : ℚ) ≤ y := fun y hy => h y (List.mem_cons_of_mem x hy)
      by_cases hpos : 0 < x
      · rw [List.filter_cons_of_pos (by simpa using hpos)]
        simp only [List.foldl_cons]
        exact ih (max a x) (le_trans ha (le_max_left a x)) hrest
      · have hx0 : x = 0 := le_antisymm (not_lt.mp hpos) hx
        rw [List.filter_cons_of_neg (by simpa using hpos)]
        simp only [List.foldl_cons]
        rw [hx0, max_eq_left ha]
        exact ih a ha hrest

lemma head_opt_scanl {α β : Type} (f : β → α → β) (b : β) (l : List α) :
    (List.scanl f b l).head? = some b := by
  cases l <;> simp [List.scanl]

lemma chain'_scanl_highMarketValue :
    ∀ (xs : List ℚ) (a : ℚ), 0 ≤ a → (∀ x ∈ xs, 0 ≤ x) →
      List.Chain' (· ≤ ·) (List.scanl highMarketValue a xs) := by
  intro xs
  induction xs with
  | nil => intro a _ _; simp [List.scanl]
  | cons x xs ih =>
      intro a ha h
      have hx : (0 : ℚ) ≤ x := h x (List.mem_cons_self x xs)
      have hrest : ∀ y ∈ xs, (0 : ℚ) ≤ y := fun y hy => h y (List.mem_cons_of_mem x hy)
      have hstep : highMarketValue a x = max a x := highMarketValue_eq_max ha hx
      simp only [List.scanl]
      rw [List.chain'_cons']
      constructor
      · intro y hy
        rw [head_opt_scanl] at hy
        cases hy
        rw [hstep]
        exact le_max_left a x
      · exact ih (highMarketValue a x)
          (by rw [hstep]; exact le_trans ha (le_max_left a x)) hrest

/-- Claim C7: over any sequence of (nonnegative) candidate prices, the
high-tracking fold started from the uninitialized value 0 has a
non-decreasing running value, and its final value is the maximum of all
positive candidates seen (0 when there is none). -/
theorem C7_fold_monotone_max (xs : List ℚ) (h : ∀ x ∈ xs, 0 ≤ x) :
    List.Chain' (· ≤ ·) (foldHighTrace 0 xs) ∧ foldHigh 0 xs = maxPositive xs := by
  constructor
  · exact chain'_scanl_highMarketValue xs 0 le_rfl h
  · unfold foldHigh maxPositive
    rw [foldl_highMarketValue_eq_foldl_max xs 0 le_rfl h,
        foldl_max_filter_pos xs 0 le_rfl h]

/-- Witness for claim C7 at the concrete candidate sequence [0, 3, 1]. -/
theorem C7_witness :
    List.Chain' (· ≤ ·) (foldHighTrace 0 ([0, 3, 1] : List ℚ))
    ∧ foldHigh 0 ([0, 3, 1] : List ℚ) = maxPositive ([0, 3, 1] : List ℚ) := by
  have h : ∀ x ∈ ([0, 3, 1] : List ℚ), 0 ≤ x := by
    intro x hx
    simp only [List.mem_cons, List.not_mem_nil, or_false] at hx
    rcases hx with h | h | h <;> rw [h] <;> norm_num
  exact C7_fold_monotone_max [0, 3, 1] h

/-! ## Claim C8 — strike rounding -/

/-- Claim C8, counterexample: the code rounds with Python's
round-half-to-even, so price 81450 (an exact tie between 81400 and
81500) yields strike 81400, not the 81500 the round-half-up claim
asserts. -/
theorem C8_counterexample :
    roundedStrike 81450 = 81400 ∧ (81400 : ℤ) ≠ 81500 := by
  refine ⟨by norm_num [roundedStrike, pyRound], by norm_num⟩

/-- Claim C8, amended: strike resolution rounds the captured price to a
nearest multiple of 100 under the round-half-to-even convention: the
strike is always within 50 of the price, no multiple of 100 is strictly
closer, price 81423.7 yields 81400, and the tie 81450 goes down to
81400 (even quotient 814) while the tie 81550 goes up to 81600 (even
quotient 816). -/
theorem C8_amended (p : ℚ) :
    roundedStrike p = 100 * pyRound (p / 100)
    ∧ |p - (roundedStrike p : ℚ)| ≤ 50
    ∧ (∀ m : ℤ, |p - (roundedStrike p : ℚ)| ≤ |p - 100 * (m : ℚ)|)
    ∧ roundedStrike (814237/10) = 81400
    ∧ roundedStrike 81450 = 81400
    ∧ roundedStrike 81550 = 81600 := by
  have hcast : ((roundedStrike p : ℤ) : ℚ) = 100 * (pyRound (p / 100) : ℚ) := by
    unfold roundedStrike
    push_cast
    ring
  have hsplit : ∀ x : ℚ, p - 100 * x = 100 * (p / 100 - x) := by intro x; ring
  have habs : ∀ x : ℚ, |p - 100 * x| = 100 * |p / 100 - x| := by
    intro x
    rw [hsplit x, abs_mul]
    norm_num
  refine ⟨by unfold roundedStrike; ring, ?_, ?_,
    by norm_num [roundedStrike, pyRound], by norm_num [roundedStrike, pyRound],
    by norm_num [roundedStrike, pyRound]⟩
  · rw [hcast, habs]
    have := pyRound_dist (p / 100)
    linarith
  · intro m
    rw [hcast, habs, habs]
    have := pyRound_nearest (p / 100) m
    linarith

/-! ## Claim C9 — historical price capture after the instant -/

/-- Claim C9, counterexample: when neither the first nor the retried
history lookup contains a bar whose open timestamp equals the instant,
the capture path returns the Python value `None` to its caller after one
30-second wait — this code path contains no raise, so the operation
never fails with a `PriceCaptureTimeout`; it returns a non-price value. -/
theorem C9_counterexample :
    captureAfterInstant ⟨9, 17, 0, 0⟩ [] [] = (CaptureOutcome.returnedNone, 2, 30) := rfl

/-- Claim C9, amended: when the instant has passed, the capture selects
the 1-minute bar whose open timestamp equals the instant and returns its
open price; a falsy first lookup (no bar, or a bar with price 0) causes
exactly one retry after a fixed 30-second wait, whose result — the
retried bar's price, or Python `None` when the retry also finds no
bar — is returned as-is, without raising any error. -/
theorem C9_amended (t : PyTime) (f1 f2 : List Candle) (p : ℚ) :
    (price_at_917 t f1 = some p → p ≠ 0 →
        captureAfterInstant t f1 f2 = (CaptureOutcome.price p, 1, 0))
    ∧ (priceTruthy (price_at_917 t f1) = false → price_at_917 t f2 = some p →
        captureAfterInstant t f1 f2 = (CaptureOutcome.price p, 2, 30))
    ∧ (priceTruthy (price_at_917 t f1) = false → price_at_917 t f2 = none →
        captureAfterInstant t f1 f2 = (CaptureOutcome.returnedNone, 2, 30)) := by
  refine ⟨?_, ?_, ?_⟩
  · intro h1 hp
    simp [captureAfterInstant, h1, priceTruthy, hp, toOutcome]
  · intro h1 h2
    simp [captureAfterInstant, h1, h2, toOutcome]
  · intro h1 h2
    simp [captureAfterInstant, h1, h2, toOutcome]

/-- Witness for claim C9: an empty first fetch and a retry fetch holding
the 09:17 bar with open price 5 yield the price 5 after exactly one
retry and one 30-second wait. -/
theorem C9_witness :
    captureAfterInstant ⟨9, 17, 0, 0⟩ [] [⟨⟨9, 17, 0, 0⟩, 5, 6⟩]
      = (CaptureOutcome.price 5, 2, 30) :=
  (C9_amended ⟨9, 17, 0, 0⟩ [] [⟨⟨9, 17, 0, 0⟩, 5, 6⟩] 5).2.1 rfl rfl

/-! ## Claim C10 — the breakout tracker's wrapped cut-off -/

/-- Claim C10 (implicit): the tracking loop's effective-end cut-off is
`time(start.hour, (start.minute + 1) mod 60)` with no carry into the
hour, so whenever the window start's minute component is 59 the cut-off
is earlier than the window start itself, and any invocation whose
current time is past the cut-off immediately performs the one-shot
historical replay and breaks instead of live-tracking the window. -/
theorem C10_cutoff_wrap (start now endT exitT : PyTime) (h59 : start.minute = 59)
    (hpast : PyTime.ltB (trackCutoff start) now = true) :
    PyTime.ltB (trackCutoff start) start = true
    ∧ trackFirstIter now start endT exitT = ⟨true, true, false⟩ := by
  constructor
  · simp [trackCutoff, PyTime.ltB, h59]
  · simp [trackFirstIter, hpast]

/-- Witness for claim C10: window start 10:59 has cut-off 10:00, which
precedes the window start, and an invocation at 10:30 (before the window
even opens) already takes the replay exit. -/
theorem C10_witness :
    PyTime.ltB (trackCutoff ⟨10, 59, 0, 0⟩) ⟨10, 59, 0, 0⟩ = true
    ∧ trackFirstIter ⟨10, 30, 0, 0⟩ ⟨10, 59, 0, 0⟩ ⟨11, 10, 0, 0⟩ ⟨15, 30, 0, 0⟩
        = ⟨true, true, false⟩ :=
  C10_cutoff_wrap ⟨10, 59, 0, 0⟩ ⟨10, 30, 0, 0⟩ ⟨11, 10, 0, 0⟩ ⟨15, 30, 0, 0⟩ rfl rfl

/-! ## Claim C1 — event classification -/

lemma foldl_lastMatch (k : RuleKind) :
    ∀ (l : List (Nat × GttRule)) (a : Nat),
      ((∀ q ∈ l, q.2.strategy ≠ k) ∧
        l.foldl (fun acc p => if p.2.strategy = k then p.1 else acc) a = a)
      ∨ (∃ q ∈ l, q.2.strategy = k ∧
          l.foldl (fun acc p => if p.2.strategy = k then p.1 else acc) a = q.1) := by
  intro l
  induction l with
  | nil =>
      intro a
      left
      exact ⟨fun q hq => absurd hq (List.not_mem_nil q), rfl⟩
  | cons q l ih =>
      intro a
      by_cases hq : q.2.strategy = k
      · rcases ih q.1 with ⟨_, heq⟩ | ⟨r, hr, hrk, heq⟩
        · right
          refine ⟨q, List.mem_cons_self q l, hq, ?_⟩
          simp only [List.foldl_cons, if_pos hq]
          exact heq
        · right
          refine ⟨r, List.mem_cons_of_mem q hr, hrk, ?_⟩
          simp only [List.foldl_cons, if_pos hq]
          exact heq
      · rcases ih a with ⟨hnone, heq⟩ | ⟨r, hr, hrk, heq⟩
        · left
          refine ⟨?_, ?_⟩
          · intro r hr
            rcases List.mem_cons.mp hr with h | h
            · rw [h]; exact hq
            · exact hnone r h
          · simp only [List.foldl_cons, if_neg hq]
            exact heq
        · right
          refine ⟨r, List.mem_cons_of_mem q hr, hrk, ?_⟩
          simp only [List.foldl_cons, if_neg hq]
          exact heq

/-- When the event contains a rule of kind `k`, the rule picked by the
index-selection loop is indeed of kind `k`. -/
lemma chosenRule_strategy (k : RuleKind) (rules : List GttRule)
    (h : ∃ r ∈ rules, r.strategy = k) :
    (chosenRule k rules).strategy = k := by
  unfold chosenRule ruleIdx
  rcases foldl_lastMatch k rules.enum 0 with ⟨hnone, _⟩ | ⟨q, hq, hqk, heq⟩
  · exfalso
    obtain ⟨r, hr, hrk⟩ := h
    obtain ⟨i, hi, hir⟩ := List.mem_iff_getElem.mp hr
    refine hnone (i, r) ?_ hrk
    rw [List.mem_enum_iff_getElem?]
    simp [List.getElem?_eq_getElem hi, hir]
  · rw [heq]
    have hget : rules[q.1]? = some q.2 := List.mem_enum_iff_getElem?.mp hq
    rw [List.getD_eq_getElem?_getD, hget]
    exact hqk

/-- An event classified `NoOp` leaves the coordinator state unchanged
and produces no effects (as do non-GTT events and unmatched events). -/
lemma processUpdate_noop (st : StratState) (inp : StepInput)
    (h : classify inp.event.rules = some Transition.NoOp) :
    processUpdate st inp = (st, []) := by
  simp only [processUpdate, h]
  split
  · rfl
  · split
    · rfl
    · rfl

/-- Claim C1, counterexample: the malformed conditional-order event
whose only rule is a CANCELLED TARGET rule (the expected ENTRY and
STOPLOSS kinds are missing) is not ignored: the index defaults make the
first rule stand in for the missing kinds, the event classifies as the
stop-loss path, and the handler mutates the leg and run state
(stop-count 1, re-entry consumed, resubmission issued). -/
theorem C1_counterexample :
    classify [⟨RuleKind.TARGET, RuleStatus.CANCELLED⟩] = some Transition.StoplossPath
    ∧ processUpdate
        ⟨StoredId.realId 1, StoredId.realId 2, 0, 0, false, false, false, 100, 90⟩
        ⟨⟨UpdateKind.gttOrder, 1, [⟨RuleKind.TARGET, RuleStatus.CANCELLED⟩]⟩, some [7], true, true⟩
      = (⟨StoredId.rawResponse [7], StoredId.realId 2, 1, 0, true, true, false, 100, 90⟩,
         [Effect.resubmit Leg.CE 100]) :=
  ⟨rfl, rfl⟩

/-- Claim C1, amended: for every conditional-order event that carries a
rule of each of the three kinds, the classifier picks for each kind a
rule of that kind (the last one of the kind in the list) and classifies
exactly as claimed: ENTRY FAILED first; otherwise STOPLOSS status in
{ACTIVE, TRIGGERED, CANCELLED, COMPLETED} with TARGET status CANCELLED
is the stop-loss path; otherwise TARGET status in {ACTIVE, TRIGGERED,
COMPLETED} is the target path; anything else is a no-op, which leaves
all leg and run state unchanged.  (An event missing a kind instead falls
back to the event's first rule for that kind and can classify as a
non-no-op, and an event with no rules at all raises an IndexError that
is caught and logged.) -/
theorem C1_amended (rules : List GttRule)
    (hE : ∃ r ∈ rules, r.strategy = RuleKind.ENTRY)
    (hS : ∃ r ∈ rules, r.strategy = RuleKind.STOPLOSS)
    (hT : ∃ r ∈ rules, r.strategy = RuleKind.TARGET) :
    (chosenRule RuleKind.ENTRY rules).strategy = RuleKind.ENTRY
    ∧ (chosenRule RuleKind.STOPLOSS rules).strategy = RuleKind.STOPLOSS
    ∧ (chosenRule RuleKind.TARGET rules).strategy = RuleKind.TARGET
    ∧ classify rules = some (
        if (chosenRule RuleKind.ENTRY rules).status = RuleStatus.FAILED then
          Transition.EntryFailed
        else if (chosenRule RuleKind.STOPLOSS rules).status ∈
              [RuleStatus.ACTIVE, RuleStatus.TRIGGERED, RuleStatus.CANCELLED,
                RuleStatus.COMPLETED]
            ∧ (chosenRule RuleKind.TARGET rules).status = RuleStatus.CANCELLED then
          Transition.StoplossPath
        else if (chosenRule RuleKind.TARGET rules).status ∈
              [RuleStatus.ACTIVE, RuleStatus.TRIGGERED, RuleStatus.COMPLETED] then
          Transition.TargetPath
        else Transition.NoOp)
    ∧ (∀ (st : StratState) (inp : StepInput),
        classify inp.event.rules = some Transition.NoOp →
        processUpdate st inp = (st, [])) := by
  have hE' := chosenRule_strategy RuleKind.ENTRY rules hE
  have hS' := chosenRule_strategy RuleKind.STOPLOSS rules hS
  have hT' := chosenRule_strategy RuleKind.TARGET rules hT
  refine ⟨hE', hS', hT', ?_, fun st inp h => processUpdate_noop st inp h⟩
  obtain ⟨r, hr, -⟩ := hE
  cases rules with
  | nil => cases hr
  | cons a l =>
      simp only [classify, hE', hT', true_and, and_true]

/-- Witness for the amended claim C1: a well-formed event whose ENTRY
rule is merely ACTIVE and whose STOPLOSS/TARGET rules are PENDING
classifies as a no-op. -/
theorem C1_witness :
    classify [⟨RuleKind.ENTRY, RuleStatus.ACTIVE⟩, ⟨RuleKind.STOPLOSS, RuleStatus.PENDING⟩,
        ⟨RuleKind.TARGET, RuleStatus.PENDING⟩] = some Transition.NoOp := by
  have h := C1_amended
    [⟨RuleKind.ENTRY, RuleStatus.ACTIVE⟩, ⟨RuleKind.STOPLOSS, RuleStatus.PENDING⟩,
      ⟨RuleKind.TARGET, RuleStatus.PENDING⟩]
    ⟨⟨RuleKind.ENTRY, RuleStatus.ACTIVE⟩, by simp, rfl⟩
    ⟨⟨RuleKind.STOPLOSS, RuleStatus.PENDING⟩, by simp, rfl⟩
    ⟨⟨RuleKind.TARGET, RuleStatus.PENDING⟩, by simp, rfl⟩
  rw [h.2.2.2.1]
  rfl

/-! ## Dispatch and preservation lemmas for the coordinator -/

/-- Under a GTT event matching at least one stored leg id, the handler
selected by `process_portfolio_update` is determined by the event's
classification. -/
lemma processUpdate_eq_handle (st : StratState) (inp : StepInput)
    (hk : inp.event.kind = UpdateKind.gttOrder) (tr : Transition)
    (hcl : classify inp.event.rules = some tr)
    (hor : idMatches st.ceId inp.event.gttId = true
      ∨ idMatches st.peId inp.event.gttId = true) :
    processUpdate st inp =
      match tr with
      | Transition.EntryFailed =>
          handleEntryFailed st (idMatches st.ceId inp.event.gttId)
            (idMatches st.peId inp.event.gttId) inp.buyResp
      | Transition.StoplossPath =>
          handleStoploss st (idMatches st.ceId inp.event.gttId)
            (idMatches st.peId inp.event.gttId) inp.buyResp
      | Transition.TargetPath =>
          handleTarget st (idMatches st.ceId inp.event.gttId)
            (idMatches st.peId inp.event.gttId) inp.cancelOk inp.cancelRetryOk
      | Transition.NoOp => (st, []) := by
  have hnm : (!(idMatches st.ceId inp.event.gttId || idMatches st.peId inp.event.gttId))
      = false := by
    rcases hor with h | h <;> simp [h]
  simp only [processUpdate, hk, hcl, hnm]
  cases tr <;> simp

lemma setLegId_counts (st : StratState) (l : Leg) (v : StoredId) :
    (setLegId st l v).ceStopCount = st.ceStopCount
    ∧ (setLegId st l v).peStopCount = st.peStopCount := by
  cases l <;> exact ⟨rfl, rfl⟩

/-- The stop-loss handler increments exactly the hit leg's count. -/
lemma handleStoplossLeg_count (st : StratState) (l : Leg) (resp : Option (List Nat)) :
    (handleStoplossLeg st l resp).1.legStopCount l = st.legStopCount l + 1
    ∧ (handleStoplossLeg st l resp).1.legStopCount l.sibling = st.legStopCount l.sibling := by
  cases l <;> cases resp <;>
    simp only [handleStoplossLeg, bumpStopCount, resubmitRaw, setLegId, markReentry,
      StratState.legStopCount, Leg.sibling] <;>
    split_ifs <;> simp

/-! ## Counting resubmission effects -/

lemma countResubmits_nil : countResubmits [] = 0 := rfl

lemma countResubmits_resubmit (l : Leg) (p : ℚ) (rest : List Effect) :
    countResubmits (Effect.resubmit l p :: rest) = countResubmits rest + 1 := rfl

lemma countResubmits_resubmitFailed (l : Leg) (rest : List Effect) :
    countResubmits (Effect.resubmitFailed l :: rest) = countResubmits rest := rfl

lemma countResubmits_cancelOrder (s : StoredId) (rest : List Effect) :
    countResubmits (Effect.cancelOrder s :: rest) = countResubmits rest := rfl

lemma countResubmits_manualCancel (l : Leg) (rest : List Effect) :
    countResubmits (Effect.manualCancel l :: rest) = countResubmits rest := rfl

lemma countResubmits_terminateSuccess (rest : List Effect) :
    countResubmits (Effect.terminateSuccess :: rest) = countResubmits rest := rfl

lemma countResubmits_errorLogged (rest : List Effect) :
    countResubmits (Effect.errorLogged :: rest) = countResubmits rest := rfl

lemma countResubmits_append (a b : List Effect) :
    countResubmits (a ++ b) = countResubmits a + countResubmits b := by
  unfold countResubmits
  rw [List.filter_append, List.length_append]

lemma setLegId_reentry (st : StratState) (l : Leg) (v : StoredId) :
    (setLegId st l v).reentryPlaced = st.reentryPlaced := by
  cases l <;> rfl

lemma markReentry_reentry (st : StratState) (l : Leg) :
    (markReentry st l).reentryPlaced = true := by
  cases l <;> rfl

/-! ## Claim C3 — stop-loss-count bookkeeping -/

/-- Claim C3, counterexample: an ENTRY-rule-FAILED event performs no
stop-loss-count bookkeeping at all (both counts stay 0 while the
re-entry is resubmitted), and duplicate delivery of a matching stop-loss
event is not idempotent: after an entry failure on the CE leg and three
deliveries of the same CE stop-loss event, the CE count reaches 3, so
`stoplossHitTotal` escapes {0,1,2}. -/
theorem C3_counterexample :
    (processUpdate
        ⟨StoredId.realId 1, StoredId.realId 2, 0, 0, false, false, false, 100, 90⟩
        ⟨⟨UpdateKind.gttOrder, 1,
          [⟨RuleKind.ENTRY, RuleStatus.FAILED⟩, ⟨RuleKind.STOPLOSS, RuleStatus.PENDING⟩,
            ⟨RuleKind.TARGET, RuleStatus.PENDING⟩]⟩, some [9], true, true⟩).1
      = ⟨StoredId.realId 9, StoredId.realId 2, 0, 0, true, false, false, 100, 90⟩
    ∧ (processRun
        ⟨StoredId.realId 1, StoredId.realId 2, 0, 0, false, false, false, 100, 90⟩
        [⟨⟨UpdateKind.gttOrder, 1,
            [⟨RuleKind.ENTRY, RuleStatus.FAILED⟩, ⟨RuleKind.STOPLOSS, RuleStatus.PENDING⟩,
              ⟨RuleKind.TARGET, RuleStatus.PENDING⟩]⟩, some [9], true, true⟩,
          ⟨⟨UpdateKind.gttOrder, 9,
            [⟨RuleKind.ENTRY, RuleStatus.TRIGGERED⟩, ⟨RuleKind.STOPLOSS, RuleStatus.TRIGGERED⟩,
              ⟨RuleKind.TARGET, RuleStatus.CANCELLED⟩]⟩, some [10], true, true⟩,
          ⟨⟨UpdateKind.gttOrder, 9,
            [⟨RuleKind.ENTRY, RuleStatus.TRIGGERED⟩, ⟨RuleKind.STOPLOSS, RuleStatus.TRIGGERED⟩,
              ⟨RuleKind.TARGET, RuleStatus.CANCELLED⟩]⟩, some [10], true, true⟩,
          ⟨⟨UpdateKind.gttOrder, 9,
            [⟨RuleKind.ENTRY, RuleStatus.TRIGGERED⟩, ⟨RuleKind.STOPLOSS, RuleStatus.TRIGGERED⟩,
              ⟨RuleKind.TARGET, RuleStatus.CANCELLED⟩]⟩, some [10], true, true⟩]).1.ceStopCount
      = 3 :=
  ⟨rfl, rfl⟩

/-- Claim C3, amended: only stop-loss-path events touch the stop-loss
counts: a matching stop-loss-path event on leg L increments L's count by
one unconditionally — there is no cap at 1, so duplicate deliveries that
still match the stored id push the count past 1 and the total past 2 —
while an ENTRY-rule-FAILED event performs only the re-entry bookkeeping
and leaves both stop-loss counts unchanged. -/
theorem C3_amended (st : StratState) (inp : StepInput) (l : Leg)
    (hk : inp.event.kind = UpdateKind.gttOrder)
    (hm : idMatches (st.legId l) inp.event.gttId = true)
    (hpe : l = Leg.PE → idMatches st.ceId inp.event.gttId = false) :
    (classify inp.event.rules = some Transition.StoplossPath →
        (processUpdate st inp).1.legStopCount l = st.legStopCount l + 1
        ∧ (processUpdate st inp).1.legStopCount l.sibling = st.legStopCount l.sibling)
    ∧ (classify inp.event.rules = some Transition.EntryFailed →
        (processUpdate st inp).1.ceStopCount = st.ceStopCount
        ∧ (processUpdate st inp).1.peStopCount = st.peStopCount) := by
  constructor
  · intro hcl
    have hor : idMatches st.ceId inp.event.gttId = true
        ∨ idMatches st.peId inp.event.gttId = true := by
      cases l
      · exact Or.inl hm
      · exact Or.inr hm
    rw [processUpdate_eq_handle st inp hk Transition.StoplossPath hcl hor]
    cases l
    · simp only [handleStoploss]
      rw [if_pos]
      · exact handleStoplossLeg_count st Leg.CE inp.buyResp
      · exact hm
    · simp only [handleStoploss]
      rw [if_neg, if_pos]
      · exact handleStoplossLeg_count st Leg.PE inp.buyResp
      · exact hm
      · simp [hpe rfl]
  · intro hcl
    have hor : idMatches st.ceId inp.event.gttId = true
        ∨ idMatches st.peId inp.event.gttId = true := by
      cases l
      · exact Or.inl hm
      · exact Or.inr hm
    rw [processUpdate_eq_handle st inp hk Transition.EntryFailed hcl hor]
    simp only [handleEntryFailed, resubmitExtract]
    split_ifs <;>
      rcases hre : inp.buyResp with _ | ⟨_ | ⟨i, is⟩⟩ <;>
      simp [setLegId_counts]

/-- Witness for the amended claim C3: a CE stop-loss event on a fresh
run takes the CE count from 0 to 1 and leaves the PE count at 0. -/
theorem C3_witness :
    (processUpdate
        ⟨StoredId.realId 1, StoredId.realId 2, 0, 0, true, false, false, 100, 90⟩
        ⟨⟨UpdateKind.gttOrder, 1,
          [⟨RuleKind.ENTRY, RuleStatus.TRIGGERED⟩, ⟨RuleKind.STOPLOSS, RuleStatus.TRIGGERED⟩,
            ⟨RuleKind.TARGET, RuleStatus.CANCELLED⟩]⟩, some [10], true, true⟩).1.ceStopCount = 1 := by
  have h := (C3_amended
    ⟨StoredId.realId 1, StoredId.realId 2, 0, 0, true, false, false, 100, 90⟩
    ⟨⟨UpdateKind.gttOrder, 1,
      [⟨RuleKind.ENTRY, RuleStatus.TRIGGERED⟩, ⟨RuleKind.STOPLOSS, RuleStatus.TRIGGERED⟩,
        ⟨RuleKind.TARGET, RuleStatus.CANCELLED⟩]⟩, some [10], true, true⟩
    Leg.CE rfl rfl (fun h => by cases h)).1 rfl
  exact h.1

/-! ## Claim C4 — target-path mutual cancellation -/

/-- Claim C4: a matching target-path event on leg L nulls L's stored
order id (the leg stops being monitored — terminal), consumes the shared
re-entry flag, leaves the sibling's stored id in place, and invokes the
sibling's cancellation exactly once when the first attempt reports
success, exactly twice when the first attempt fails, and — when the
retry fails too — surfaces the user-visible manual-cancellation request;
in all three outcomes the handler completes normally with no error
effect. -/
theorem C4_target_cancellation (st : StratState) (inp : StepInput) (l : Leg)
    (hk : inp.event.kind = UpdateKind.gttOrder)
    (hm : idMatches (st.legId l) inp.event.gttId = true)
    (hpe : l = Leg.PE → idMatches st.ceId inp.event.gttId = false)
    (hcl : classify inp.event.rules = some Transition.TargetPath) :
    (processUpdate st inp).1.legId l = StoredId.noneId
    ∧ (processUpdate st inp).1.reentryPlaced = true
    ∧ (processUpdate st inp).1.legId l.sibling = st.legId l.sibling
    ∧ (processUpdate st inp).2 =
        (if inp.cancelOk then [Effect.cancelOrder (st.legId l.sibling)]
         else if inp.cancelRetryOk then
           [Effect.cancelOrder (st.legId l.sibling), Effect.cancelOrder (st.legId l.sibling)]
         else
           [Effect.cancelOrder (st.legId l.sibling), Effect.cancelOrder (st.legId l.sibling),
             Effect.manualCancel l.sibling]) := by
  have hor : idMatches st.ceId inp.event.gttId = true
      ∨ idMatches st.peId inp.event.gttId = true := by
    cases l
    · exact Or.inl hm
    · exact Or.inr hm
  rw [processUpdate_eq_handle st inp hk Transition.TargetPath hcl hor]
  cases l
  · simp only [StratState.legId] at hm
    simp only [handleTarget, handleTargetLeg, hm, if_true, Leg.sibling, StratState.legId]
    split_ifs <;> simp [setLegId, StratState.legId, Leg.sibling]
  · simp only [StratState.legId] at hm
    have hce := hpe rfl
    simp only [handleTarget, handleTargetLeg, hm, hce, Bool.false_eq_true, if_false, if_true,
      Leg.sibling, StratState.legId]
    split_ifs <;> simp [setLegId, StratState.legId, Leg.sibling]

/-- Witness for claim C4: a CE target event whose sibling cancellation
fails twice produces exactly two cancellation attempts followed by the
manual-cancellation request, with the CE leg terminal. -/
theorem C4_witness :
    (processUpdate
        ⟨StoredId.realId 1, StoredId.realId 2, 0, 0, false, false, false, 100, 90⟩
        ⟨⟨UpdateKind.gttOrder, 1,
          [⟨RuleKind.ENTRY, RuleStatus.TRIGGERED⟩, ⟨RuleKind.STOPLOSS, RuleStatus.CANCELLED⟩,
            ⟨RuleKind.TARGET, RuleStatus.COMPLETED⟩]⟩, some [11], false, false⟩).1.ceId
      = StoredId.noneId
    ∧ (processUpdate
        ⟨StoredId.realId 1, StoredId.realId 2, 0, 0, false, false, false, 100, 90⟩
        ⟨⟨UpdateKind.gttOrder, 1,
          [⟨RuleKind.ENTRY, RuleStatus.TRIGGERED⟩, ⟨RuleKind.STOPLOSS, RuleStatus.CANCELLED⟩,
            ⟨RuleKind.TARGET, RuleStatus.COMPLETED⟩]⟩, some [11], false, false⟩).2
      = [Effect.cancelOrder (StoredId.realId 2), Effect.cancelOrder (StoredId.realId 2),
          Effect.manualCancel Leg.PE] := by
  have h := C4_target_cancellation
    ⟨StoredId.realId 1, StoredId.realId 2, 0, 0, false, false, false, 100, 90⟩
    ⟨⟨UpdateKind.gttOrder, 1,
      [⟨RuleKind.ENTRY, RuleStatus.TRIGGERED⟩, ⟨RuleKind.STOPLOSS, RuleStatus.CANCELLED⟩,
        ⟨RuleKind.TARGET, RuleStatus.COMPLETED⟩]⟩, some [11], false, false⟩
    Leg.CE rfl rfl (fun h => by cases h) rfl
  refine ⟨h.1, ?_⟩
  rw [h.2.2.2]
  rfl

/-! ## Claim C5 — stored order identifier after submissions -/

/-- Claim C5: the stop-loss-path re-entry stores the entire `buyStock`
API response in the leg's order-id attribute instead of the extracted
`data.gtt_order_ids[0]` (unlike the entry-failed re-entry, which does
extract the broker id), so a subsequent dispatcher event carrying the
broker-assigned id 42 no longer matches the leg and is dropped. -/
theorem C5_stoploss_resubmit_stores_raw_response :
    (processUpdate
        ⟨StoredId.realId 1, StoredId.realId 2, 0, 0, false, false, false, 100, 90⟩
        ⟨⟨UpdateKind.gttOrder, 1,
          [⟨RuleKind.ENTRY, RuleStatus.TRIGGERED⟩, ⟨RuleKind.STOPLOSS, RuleStatus.TRIGGERED⟩,
            ⟨RuleKind.TARGET, RuleStatus.CANCELLED⟩]⟩, some [42], true, true⟩).1.ceId
      = StoredId.rawResponse [42]
    ∧ idMatches (StoredId.rawResponse [42]) 42 = false
    ∧ processUpdate
        ⟨StoredId.rawResponse [42], StoredId.realId 2, 1, 0, true, true, false, 100, 90⟩
        ⟨⟨UpdateKind.gttOrder, 42,
          [⟨RuleKind.ENTRY, RuleStatus.TRIGGERED⟩, ⟨RuleKind.STOPLOSS, RuleStatus.TRIGGERED⟩,
            ⟨RuleKind.TARGET, RuleStatus.CANCELLED⟩]⟩, some [43], true, true⟩
      = (⟨StoredId.rawResponse [42], StoredId.realId 2, 1, 0, true, true, false, 100, 90⟩, [])
    ∧ (processUpdate
        ⟨StoredId.realId 1, StoredId.realId 2, 0, 0, false, false, false, 100, 90⟩
        ⟨⟨UpdateKind.gttOrder, 1,
          [⟨RuleKind.ENTRY, RuleStatus.FAILED⟩, ⟨RuleKind.STOPLOSS, RuleStatus.PENDING⟩,
            ⟨RuleKind.TARGET, RuleStatus.PENDING⟩]⟩, some [42], true, true⟩).1.ceId
      = StoredId.realId 42 :=
  ⟨rfl, rfl, rfl, rfl⟩

/-! ## Claim C2 — the shared one-shot re-entry budget -/

lemma handleEntryFailed_resub (st : StratState) (isCe isPe : Bool) (resp : Option (List Nat))
    (hwf : respWellFormed resp) :
    countResubmits (handleEntryFailed st isCe isPe resp).2 ≤ 1
    ∧ (st.reentryPlaced = true →
        (handleEntryFailed st isCe isPe resp).1.reentryPlaced = true
        ∧ countResubmits (handleEntryFailed st isCe isPe resp).2 = 0)
    ∧ (1 ≤ countResubmits (handleEntryFailed st isCe isPe resp).2 →
        st.reentryPlaced = false ∧ (handleEntryFailed st isCe isPe resp).1.reentryPlaced = true) := by
  unfold handleEntryFailed resubmitExtract
  rcases resp with _ | ⟨_ | ⟨i, is⟩⟩
  · split_ifs with h1 h2 <;>
      simp_all [countResubmits_nil, countResubmits_resubmitFailed, countResubmits_errorLogged]
  · simp [respWellFormed] at hwf
  · split_ifs with h1 h2 <;>
      simp_all [countResubmits_nil, countResubmits_resubmit, setLegId_reentry]

lemma handleStoplossLeg_resub (st : StratState) (l : Leg) (resp : Option (List Nat)) :
    countResubmits (handleStoplossLeg st l resp).2 ≤ 1
    ∧ (st.reentryPlaced = true →
        (handleStoplossLeg st l resp).1.reentryPlaced = true
        ∧ countResubmits (handleStoplossLeg st l resp).2 = 0)
    ∧ (1 ≤ countResubmits (handleStoplossLeg st l resp).2 →
        st.reentryPlaced = false ∧ (handleStoplossLeg st l resp).1.reentryPlaced = true) := by
  cases l <;>
    (unfold handleStoplossLeg resubmitRaw
     rcases resp with _ | ids) <;>
    (simp only [bumpStopCount]
     split_ifs with h1 h2) <;>
    simp_all [markReentry, setLegId, countResubmits_nil, countResubmits_resubmit,
      countResubmits_resubmitFailed, countResubmits_cancelOrder,
      countResubmits_terminateSuccess]

lemma handleStoploss_resub (st : StratState) (isCe isPe : Bool) (resp : Option (List Nat)) :
    countResubmits (handleStoploss st isCe isPe resp).2 ≤ 1
    ∧ (st.reentryPlaced = true →
        (handleStoploss st isCe isPe resp).1.reentryPlaced = true
        ∧ countResubmits (handleStoploss st isCe isPe resp).2 = 0)
    ∧ (1 ≤ countResubmits (handleStoploss st isCe isPe resp).2 →
        st.reentryPlaced = false ∧ (handleStoploss st isCe isPe resp).1.reentryPlaced = true) := by
  unfold handleStoploss
  cases isCe
  · cases isPe
    · simp [countResubmits_nil]
    · simpa using handleStoplossLeg_resub st Leg.PE resp
  · simpa using handleStoplossLeg_resub st Leg.CE resp

lemma handleTarget_resub (st : StratState) (isCe isPe : Bool) (cancelOk cancelRetryOk : Bool) :
    countResubmits (handleTarget st isCe isPe cancelOk cancelRetryOk).2 = 0
    ∧ (st.reentryPlaced = true →
        (handleTarget st isCe isPe cancelOk cancelRetryOk).1.reentryPlaced = true) := by
  unfold handleTarget handleTargetLeg
  split_ifs <;>
    simp_all [countResubmits_nil, countResubmits_cancelOrder, countResubmits_manualCancel,
      setLegId_reentry]

/-- Per-event resubmission bookkeeping: one event causes at most one
actual resubmission; it causes none when the shared flag is already set
(and the flag stays set); and whenever it causes one, the flag was clear
before and is set afterwards. -/
lemma processUpdate_resub_spec (st : StratState) (inp : StepInput)
    (hwf : respWellFormed inp.buyResp) :
    countResubmits (processUpdate st inp).2 ≤ 1
    ∧ (st.reentryPlaced = true →
        (processUpdate st inp).1.reentryPlaced = true
        ∧ countResubmits (processUpdate st inp).2 = 0)
    ∧ (1 ≤ countResubmits (processUpdate st inp).2 →
        st.reentryPlaced = false ∧ (processUpdate st inp).1.reentryPlaced = true) := by
  simp only [processUpdate]
  split
  · simp [countResubmits_nil]
  · split
    · simp [countResubmits_nil]
    · split
      · simp [countResubmits_nil, countResubmits_errorLogged]
      · exact handleEntryFailed_resub st _ _ inp.buyResp hwf
      · exact handleStoploss_resub st _ _ inp.buyResp
      · have h := handleTarget_resub st (idMatches st.ceId inp.event.gttId)
          (idMatches st.peId inp.event.gttId) inp.cancelOk inp.cancelRetryOk
        refine ⟨by rw [h.1]; exact Nat.zero_le 1, fun hr => ⟨h.2 hr, h.1⟩, fun hr => ?_⟩
        rw [h.1] at hr
        cases hr
      · simp [countResubmits_nil]

lemma countResubmits_pos {l : Leg} {p : ℚ} {effs : List Effect}
    (h : Effect.resubmit l p ∈ effs) : 1 ≤ countResubmits effs := by
  unfold countResubmits
  have hmem : Effect.resubmit l p ∈ effs.filter
      (fun e => match e with | Effect.resubmit _ _ => true | _ => false) :=
    List.mem_filter.mpr ⟨h, rfl⟩
  exact List.length_pos_of_mem hmem

lemma resubmit_mem_handleEntryFailed (st : StratState) (isCe isPe : Bool)
    (resp : Option (List Nat)) (l : Leg) (p : ℚ)
    (h : Effect.resubmit l p ∈ (handleEntryFailed st isCe isPe resp).2) :
    p = st.legHigh l ∧ st.reentryPlaced = false := by
  unfold handleEntryFailed resubmitExtract at h
  rcases resp with _ | ⟨_ | ⟨i, is⟩⟩ <;>
    split_ifs at h with h1 h2 <;>
    simp_all [StratState.legHigh, setLegId]

lemma resubmit_mem_handleStoplossLeg (st : StratState) (l0 : Leg)
    (resp : Option (List Nat)) (l : Leg) (p : ℚ)
    (h : Effect.resubmit l p ∈ (handleStoplossLeg st l0 resp).2) :
    p = st.legHigh l ∧ st.reentryPlaced = false := by
  cases l0 <;>
    (unfold handleStoplossLeg resubmitRaw at h
     rcases resp with _ | ids) <;>
    (simp only [bumpStopCount] at h
     split_ifs at h with h1 h2) <;>
    simp_all [StratState.legHigh, setLegId, markReentry]

/-- Each actual resubmission effect carries the hit leg's tracked high
price as the new base price, and can only fire while the shared re-entry
flag is still clear. -/
lemma processUpdate_resubmit_mem (st : StratState) (inp : StepInput) (l : Leg) (p : ℚ)
    (h : Effect.resubmit l p ∈ (processUpdate st inp).2) :
    p = st.legHigh l ∧ st.reentryPlaced = false := by
  simp only [processUpdate] at h
  split at h
  · cases h
  · split at h
    · cases h
    · split at h
      · simp at h
      · exact resubmit_mem_handleEntryFailed st _ _ inp.buyResp l p h
      · revert h
        unfold handleStoploss
        split_ifs <;> intro h
        · exact resubmit_mem_handleStoplossLeg st Leg.CE inp.buyResp l p h
        · exact resubmit_mem_handleStoplossLeg st Leg.PE inp.buyResp l p h
        · cases h
      · exfalso
        have hz := (handleTarget_resub st (idMatches st.ceId inp.event.gttId)
          (idMatches st.peId inp.event.gttId) inp.cancelOk inp.cancelRetryOk).1
        have := countResubmits_pos h
        rw [hz] at this
        cases this
      · cases h

/-- Once the shared re-entry flag is set, no later event of a run emits
an actual resubmission and the flag stays set. -/
lemma processRun_resub_zero (inputs : List StepInput) :
    ∀ st : StratState, st.reentryPlaced = true →
      (∀ inp ∈ inputs, respWellFormed inp.buyResp) →
      countResubmits (processRun st inputs).2 = 0
      ∧ (processRun st inputs).1.reentryPlaced = true := by
  induction inputs with
  | nil => intro st h _; exact ⟨rfl, h⟩
  | cons inp rest ih =>
      intro st h hwf
      have hspec := processUpdate_resub_spec st inp (hwf inp (List.mem_cons_self inp rest))
      obtain ⟨hpost, hcount⟩ := hspec.2.1 h
      have hrest := ih (processUpdate st inp).1 hpost
        (fun i hi => hwf i (List.mem_cons_of_mem inp hi))
      simp only [processRun]
      rw [countResubmits_append]
      exact ⟨by rw [hcount, hrest.1], hrest.2⟩

/-- Over any event sequence (with well-formed broker responses), at most
one actual resubmission occurs in total. -/
lemma processRun_resub_le (inputs : List StepInput) :
    ∀ st : StratState,
      (∀ inp ∈ inputs, respWellFormed inp.buyResp) →
      countResubmits (processRun st inputs).2 ≤ 1 := by
  induction inputs with
  | nil => intro st _; simp [processRun, countResubmits_nil]
  | cons inp rest ih =>
      intro st hwf
      have hspec := processUpdate_resub_spec st inp (hwf inp (List.mem_cons_self inp rest))
      have hwfr : ∀ i ∈ rest, respWellFormed i.buyResp :=
        fun i hi => hwf i (List.mem_cons_of_mem inp hi)
      simp only [processRun]
      rw [countResubmits_append]
      by_cases hcnt : 1 ≤ countResubmits (processUpdate st inp).2
      · obtain ⟨hpre, hpost⟩ := hspec.2.2 hcnt
        have hz := (processRun_resub_zero rest (processUpdate st inp).1 hpost hwfr).1
        rw [hz]
        simpa using hspec.1
      · have h0 : countResubmits (processUpdate st inp).2 = 0 :=
          Nat.lt_one_iff.mp (Nat.lt_of_not_le hcnt)
        rw [h0]
        simpa using ih (processUpdate st inp).1 hwfr

/-- A second stop-loss (on the leg whose sibling has already stopped out
once) cancels the sibling's stored order, reports the run complete, and
performs no resubmission; the counts then sum to 2. -/
lemma processUpdate_second_stoploss (st : StratState) (inp : StepInput) (ll : Leg)
    (hk : inp.event.kind = UpdateKind.gttOrder)
    (hm : idMatches (st.legId ll) inp.event.gttId = true)
    (hpe : ll = Leg.PE → idMatches st.ceId inp.event.gttId = false)
    (hcl : classify inp.event.rules = some Transition.StoplossPath)
    (h0 : st.legStopCount ll = 0) (h1 : st.legStopCount ll.sibling = 1) :
    (processUpdate st inp).2
      = [Effect.cancelOrder (st.legId ll.sibling), Effect.terminateSuccess]
    ∧ (processUpdate st inp).1.legStopCount ll
        + (processUpdate st inp).1.legStopCount ll.sibling = 2
    ∧ countResubmits (processUpdate st inp).2 = 0 := by
  have hor : idMatches st.ceId inp.event.gttId = true
      ∨ idMatches st.peId inp.event.gttId = true := by
    cases ll
    · exact Or.inl hm
    · exact Or.inr hm
  rw [processUpdate_eq_handle st inp hk Transition.StoplossPath hcl hor]
  cases ll
  · simp only [StratState.legId] at hm
    simp only [StratState.legStopCount, Leg.sibling] at h0 h1
    simp only [handleStoploss, hm, if_true]
    unfold handleStoplossLeg
    simp only [bumpStopCount]
    rw [if_pos (by simp [h0, h1])]
    simp [StratState.legId, StratState.legStopCount, Leg.sibling, h0, h1,
      countResubmits_cancelOrder, countResubmits_terminateSuccess, countResubmits_nil]
  · simp only [StratState.legId] at hm
    have hce := hpe rfl
    simp only [StratState.legStopCount, Leg.sibling] at h0 h1
    simp only [handleStoploss, hm, hce, Bool.false_eq_true, if_false, if_true]
    unfold handleStoplossLeg
    simp only [bumpStopCount]
    rw [if_pos (by simp [h0, h1])]
    simp [StratState.legId, StratState.legStopCount, Leg.sibling, h0, h1,
      countResubmits_cancelOrder, countResubmits_terminateSuccess, countResubmits_nil]

/-- Claim C2: across any run, at most one actual re-entry resubmission
occurs over both legs (given well-formed broker responses: a successful
GTT placement carries at least one order id); every resubmission uses
the hit leg's tracked high price as the new base price and takes the
shared budget from 1 to 0; the budget, read off the shared flag, never
leaves {0, 1} and in particular never goes negative; and a second
stop-loss on the sibling leg (counts 1 and 0 before the event) triggers
run termination — the other leg's stored order is cancelled, the counts
sum to 2 and no resubmission is issued. -/
theorem C2_shared_reentry_budget :
    (∀ (st : StratState) (inputs : List StepInput),
        (∀ inp ∈ inputs, respWellFormed inp.buyResp) →
        countResubmits (processRun st inputs).2 ≤ 1)
    ∧ (∀ (st : StratState) (inp : StepInput) (l : Leg) (p : ℚ),
        respWellFormed inp.buyResp →
        Effect.resubmit l p ∈ (processUpdate st inp).2 →
        p = st.legHigh l ∧ reentryBudget st = 1
        ∧ reentryBudget (processUpdate st inp).1 = 0)
    ∧ (∀ st : StratState, 0 ≤ reentryBudget st ∧ reentryBudget st ≤ 1)
    ∧ (∀ (st : StratState) (inp : StepInput) (ll : Leg),
        inp.event.kind = UpdateKind.gttOrder →
        idMatches (st.legId ll) inp.event.gttId = true →
        (ll = Leg.PE → idMatches st.ceId inp.event.gttId = false) →
        classify inp.event.rules = some Transition.StoplossPath →
        st.legStopCount ll = 0 → st.legStopCount ll.sibling = 1 →
        (processUpdate st inp).2
          = [Effect.cancelOrder (st.legId ll.sibling), Effect.terminateSuccess]
        ∧ (processUpdate st inp).1.legStopCount ll
            + (processUpdate st inp).1.legStopCount ll.sibling = 2
        ∧ countResubmits (processUpdate st inp).2 = 0) := by
  refine ⟨fun st inputs hwf => processRun_resub_le inputs st hwf, ?_, ?_, ?_⟩
  · intro st inp l p hwf h
    obtain ⟨hp, hpre⟩ := processUpdate_resubmit_mem st inp l p h
    have hspec := processUpdate_resub_spec st inp hwf
    have hpost := (hspec.2.2 (countResubmits_pos h)).2
    exact ⟨hp, by simp [reentryBudget, hpre], by simp [reentryBudget, hpost]⟩
  · intro st
    unfold reentryBudget
    split <;> simp
  · intro st inp ll hk hm hpe hcl h0 h1
    exact processUpdate_second_stoploss st inp ll hk hm hpe hcl h0 h1

/-- Witness for claim C2: running the spec's scenario — leg A (CE)
stop-loss then leg B (PE) stop-loss — yields at most one resubmission in
total, and the second stop-loss (PE, with the CE count already 1)
cancels the other leg's stored order and reports the run complete. -/
theorem C2_witness :
    countResubmits (processRun
        ⟨StoredId.realId 1, StoredId.realId 2, 0, 0, false, false, false, 100, 90⟩
        [⟨⟨UpdateKind.gttOrder, 1,
            [⟨RuleKind.ENTRY, RuleStatus.TRIGGERED⟩, ⟨RuleKind.STOPLOSS, RuleStatus.TRIGGERED⟩,
              ⟨RuleKind.TARGET, RuleStatus.CANCELLED⟩]⟩, some [42], true, true⟩,
          ⟨⟨UpdateKind.gttOrder, 2,
            [⟨RuleKind.ENTRY, RuleStatus.TRIGGERED⟩, ⟨RuleKind.STOPLOSS, RuleStatus.TRIGGERED⟩,
              ⟨RuleKind.TARGET, RuleStatus.CANCELLED⟩]⟩, some [43], true, true⟩]).2 ≤ 1
    ∧ (processUpdate
        ⟨StoredId.rawResponse [42], StoredId.realId 2, 1, 0, true, true, false, 100, 90⟩
        ⟨⟨UpdateKind.gttOrder, 2,
          [⟨RuleKind.ENTRY, RuleStatus.TRIGGERED⟩, ⟨RuleKind.STOPLOSS, RuleStatus.TRIGGERED⟩,
            ⟨RuleKind.TARGET, RuleStatus.CANCELLED⟩]⟩, some [43], true, true⟩).2
      = [Effect.cancelOrder (StoredId.rawResponse [42]), Effect.terminateSuccess] := by
  constructor
  · refine C2_shared_reentry_budget.1 _ _ ?_
    intro inp hi
    simp only [List.mem_cons, List.not_mem_nil, or_false] at hi
    rcases hi with h | h <;> rw [h] <;> simp [respWellFormed]
  · exact (C2_shared_reentry_budget.2.2.2
      ⟨StoredId.rawResponse [42], StoredId.realId 2, 1, 0, true, true, false, 100, 90⟩
      ⟨⟨UpdateKind.gttOrder, 2,
        [⟨RuleKind.ENTRY, RuleStatus.TRIGGERED⟩, ⟨RuleKind.STOPLOSS, RuleStatus.TRIGGERED⟩,
          ⟨RuleKind.TARGET, RuleStatus.CANCELLED⟩]⟩, some [43], true, true⟩
      Leg.PE rfl rfl (fun _ => rfl) rfl rfl rfl).1

end AlgTrading
